import Mathlib

/-!
# Verification of the Jarvis command interpretation and execution engine

Shallow embedding of the Jarvis assistant repository: the HTTP command
route (`src/app/api/command/route.ts`), the browser adapter
(`src/app/page.tsx`), and the command engine.  The engine itself
(`src/lib/command-registry.ts`) is referenced by the route but its source
is not part of the provided tree, so its operations are modelled from the
specification; such definitions carry a doc comment starting
`Modelled from the spec:`.
-/

/-! ## String helpers (explicit list-of-characters implementations) -/

/-- Does `s` start with the pattern `pat` (character-exact test on the
character lists)? -/
def startsWithL : List Char → List Char → Bool
  | _, [] => true
  | [], _ :: _ => false
  | a :: as, b :: bs => a = b && startsWithL as bs

/-- String version of `startsWithL`. -/
def strStarts (s pat : String) : Bool := startsWithL s.data pat.data

/-- Drop the first `n` characters of a string. -/
def strDrop (s : String) (n : Nat) : String := ⟨s.data.drop n⟩

/-- Remove whitespace from both ends of a string. -/
def strTrim (s : String) : String :=
  ⟨((s.data.dropWhile Char.isWhitespace).reverse.dropWhile Char.isWhitespace).reverse⟩

/-- Collapse every interior run of whitespace to a single space and drop a
trailing run.  The flag records whether the previous character was
whitespace.  Assumes the first character is not whitespace. -/
def squeezeAux : Bool → List Char → List Char
  | _, [] => []
  | pw, c :: rest =>
    if c.isWhitespace then squeezeAux true rest
    else if pw then ' ' :: c :: squeezeAux false rest
    else c :: squeezeAux false rest

/-- Modelled from the spec: utterance normalization — trim, lowercase,
collapse whitespace (spec section 4.1). -/
def normText (s : String) : String :=
  ⟨squeezeAux false ((s.data.map Char.toLower).dropWhile Char.isWhitespace)⟩

/-- `t` occurs as a contiguous substring of `s`. -/
def strContains (s t : String) : Prop := List.IsInfix t.data s.data

/-- Keep only the first `n` characters (output truncation cap). -/
def truncateAt (n : Nat) (s : String) : String := ⟨s.data.take n⟩

example : normText "  Launch   VS Code  " = "launch vs code" := by decide
example : normText "   " = "" := by decide
example : strTrim "  x " = "x" := by decide

/-! ## Data model -/

/-- Modelled from the spec: execution descriptor for a whitelisted binary —
binary path plus argument vector (spec section 3, Whitelist Entry). -/
structure ExecDesc where
  bin : String
  args : List String
deriving DecidableEq

/-- Modelled from the spec: a stored note `{ createdAt, text }`
(spec section 3, Note). -/
structure Note where
  createdAt : Nat
  text : String
deriving DecidableEq

/-- Modelled from the spec: the engine's only output type
`{ title, detail, spoken? }` (spec section 3, Result). -/
structure ResultPayload where
  title : String
  detail : String
  spoken : Option String
deriving DecidableEq

/-- Modelled from the spec: the closed intent taxonomy (spec section 3,
Intent). -/
inductive Intent where
  | launchApp (name : String)
  | openWebsite (name : String)
  | systemStatus
  | runWhitelistedCommand (name : String)
  | addNote (text : String)
  | readNotes
  | unrecognized
deriving DecidableEq

/-- Modelled from the spec: the closed error taxonomy surfaced by the
engine (spec section 7). -/
inductive EngineError where
  | unsupportedTarget (name : String)
  | timeout
  | executionFailed
  | storageUnavailable
  | internalError
deriving DecidableEq

/-- Modelled from the spec: observable host-affecting effects the
dispatcher may emit — detached process spawn, URL open, shell execution,
and forcible termination of a spawned shell process. -/
inductive Effect where
  | spawnDetached (d : ExecDesc)
  | openUrl (url : String)
  | shellExec (d : ExecDesc)
  | killProcess (d : ExecDesc)
deriving DecidableEq

/-- Modelled from the spec: the engine's only long-lived state, the
append-only notes store (spec section 3, Ownership). -/
structure EngineState where
  notes : List Note
deriving DecidableEq

/-- Outcome of running one whitelisted shell command on the host:
wall-clock duration, captured output and exit status. -/
structure ShellRun where
  durationMs : Nat
  stdout : String
  stderr : String
  exitCode : Int

/-- Host oracle: clock, health metrics (each possibly unavailable) and the
behaviour of shell executions. -/
structure Host where
  now : Nat
  uptimeSec : Option Nat
  memoryUsedPercent : Option Nat
  loadAverage : Option Nat
  shellRun : ExecDesc → ShellRun

/-! ## Command whitelist -/

/-- Modelled from the spec: static alias table for launchable applications
(spec section 4.2; aliases from the README and UI suggestions). -/
def appsTable : List (String × ExecDesc) :=
  [("vs code", ⟨"/usr/bin/code", []⟩),
   ("spotify", ⟨"/usr/bin/spotify", []⟩)]

/-- Modelled from the spec: static alias table for websites
(spec section 4.2). -/
def websitesTable : List (String × String) :=
  [("youtube", "https://www.youtube.com"),
   ("github", "https://github.com")]

/-- Modelled from the spec: static alias table for whitelisted shell
commands (spec section 4.2; aliases from the UI capabilities list). -/
def shellTable : List (String × ExecDesc) :=
  [("status", ⟨"/usr/bin/uptime", []⟩),
   ("uptime", ⟨"/usr/bin/uptime", []⟩),
   ("whoami", ⟨"/usr/bin/whoami", []⟩),
   ("ip", ⟨"/usr/sbin/ip", ["addr"]⟩)]

/-- Case-insensitive normalized lookup in a static alias table; total,
returns `none` when the alias is absent. -/
def lookupTable (tbl : List (String × α)) (name : String) : Option α :=
  (tbl.find? (fun p => p.1 = normText name)).map Prod.snd

/-- Modelled from the spec: `resolveApp` (spec section 4.2). -/
def resolveApp (name : String) : Option ExecDesc := lookupTable appsTable name

/-- Modelled from the spec: `resolveWebsite` (spec section 4.2). -/
def resolveWebsite (name : String) : Option String := lookupTable websitesTable name

/-- Modelled from the spec: `resolveShellCommand` (spec section 4.2). -/
def resolveShellCommand (name : String) : Option ExecDesc := lookupTable shellTable name

example : resolveApp "VS Code" = some ⟨"/usr/bin/code", []⟩ := by decide
example : resolveApp "emacs" = none := by decide

/-! ## Intent matcher -/

/-- How a rule turns a normalized utterance into an intent: either a fixed
intent ignoring remainder text, or a slot-extracting constructor. -/
inductive RuleAction where
  | plain (intent : Intent)
  | slot (build : String → Intent)

/-- A matcher rule: a trigger phrase plus its action. -/
structure Rule where
  trigger : String
  action : RuleAction

/-- Modelled from the spec: the ordered rule list (spec sections 4.1 and 6),
longer/more specific trigger phrases first. -/
def rules : List Rule :=
  [⟨"what is our system status", .plain .systemStatus⟩,
   ⟨"open the website", .slot .openWebsite⟩,
   ⟨"run the command", .slot .runWhitelistedCommand⟩,
   ⟨"take note that", .slot .addNote⟩,
   ⟨"read my notes", .plain .readNotes⟩,
   ⟨"launch", .slot .launchApp⟩]

/-- Modelled from the spec: applying a matched rule — plain rules ignore
remainder text; slot rules take the remainder after the trigger phrase,
trimmed, and an empty slot yields `unrecognized` (spec section 4.1). -/
def applyRule (r : Rule) (n : String) : Intent :=
  match r.action with
  | .plain i => i
  | .slot build =>
    let v := strTrim (strDrop n r.trigger.length)
    if v = "" then .unrecognized else build v

/-- First rule whose trigger phrase is a prefix of the normalized
utterance wins; no match yields `unrecognized`. -/
def matchGo : List Rule → String → Intent
  | [], _ => .unrecognized
  | r :: rest, n => if strStarts n r.trigger then applyRule r n else matchGo rest n

/-- Modelled from the spec: `match(utterance) -> Intent`
(spec section 4.1). -/
def matchIntent (u : String) : Intent := matchGo rules (normText u)

example : matchIntent "Open the website YouTube" = .openWebsite "youtube" := by decide
example : matchIntent "Launch VS Code" = .launchApp "vs code" := by decide
example : matchIntent "What is our system status?" = .systemStatus := by decide
example : matchIntent "" = .unrecognized := by decide
example : matchIntent "launch   " = .unrecognized := by decide
example : matchIntent "make me a sandwich" = .unrecognized := by decide

/-! ## Health inspector and dispatcher -/

/-- Modelled from the spec: render one health metric, degrading an
unavailable reading to an explicit marker (spec section 4.3). -/
def metricText (label : String) (v : Option Nat) (unit : String) : String :=
  match v with
  | none => label ++ ": unavailable"
  | some n => label ++ ": " ++ toString n ++ unit

/-- Modelled from the spec: the health report detail, recomputed from the
host's current metrics (spec sections 3 and 4.5). -/
def healthDetail (h : Host) : String :=
  metricText "Uptime" h.uptimeSec " s" ++ "\n" ++
    metricText "Memory used" h.memoryUsedPercent " percent" ++ "\n" ++
    metricText "Load average" h.loadAverage ""

/-- Modelled from the spec: the shorter spoken health summary
(spec section 4.5). -/
def healthSpoken (h : Host) : String :=
  "System is healthy. " ++ metricText "Uptime" h.uptimeSec " seconds" ++ ". " ++
    metricText "Memory used" h.memoryUsedPercent " percent" ++ "."

/-- Modelled from the spec: the Result asking the user to rephrase
(spec section 4.5, `Unrecognized`). -/
def unrecognizedResult : ResultPayload :=
  ⟨"Not Understood",
   "I did not catch that. Try: launch, open the website, run the command, take note that, read my notes, or ask for system status.",
   none⟩

/-- Modelled from the spec: newline-joined chronological rendering of note
texts (spec section 4.5, `ReadNotes`). -/
def renderTexts : List String → String
  | [] => ""
  | [t] => t
  | t :: rest => t ++ "\n" ++ renderTexts rest

/-- Modelled from the spec: notes-store append; rejects empty text
(spec section 4.4). -/
def notesAppend (now : Nat) (text : String) (notes : List Note) : Option (List Note) :=
  if strTrim text = "" then none else some (notes ++ [⟨now, text⟩])

/-- Modelled from the spec: the wall-clock budget for whitelisted shell
commands, 5 seconds (spec section 4.5). -/
def timeoutBudgetMs : Nat := 5000

/-- Modelled from the spec: the output truncation cap (spec section 4.5). -/
def outputCap : Nat := 2000

/-- Modelled from the spec: the action dispatcher
`dispatch(intent) -> Result` (spec section 4.5), with the emitted
host-affecting effects made explicit. -/
def dispatch (h : Host) (s : EngineState) :
    Intent → (Except EngineError ResultPayload × EngineState × List Effect)
  | .launchApp name =>
    match resolveApp name with
    | none => (.error (.unsupportedTarget name), s, [])
    | some d =>
      (.ok ⟨"App Launched", "Launching " ++ name ++ ".", none⟩, s, [.spawnDetached d])
  | .openWebsite name =>
    match resolveWebsite name with
    | none => (.error (.unsupportedTarget name), s, [])
    | some url =>
      (.ok ⟨"Website Opened", "Opening " ++ name ++ " at " ++ url ++ ".", none⟩, s,
        [.openUrl url])
  | .systemStatus =>
    (.ok ⟨"System Status", healthDetail h, some (healthSpoken h)⟩, s, [])
  | .runWhitelistedCommand name =>
    match resolveShellCommand name with
    | none => (.error (.unsupportedTarget name), s, [])
    | some d =>
      let run := h.shellRun d
      if timeoutBudgetMs < run.durationMs then
        (.error .timeout, s, [.shellExec d, .killProcess d])
      else
        (.ok ⟨"Command Finished",
          truncateAt outputCap run.stdout ++ "\nExit code: " ++ toString run.exitCode,
          none⟩, s, [.shellExec d])
  | .addNote text =>
    match notesAppend h.now text s.notes with
    | none => (.error .internalError, s, [])
    | some notes => (.ok ⟨"Note Saved", "Noted: " ++ text, none⟩, ⟨notes⟩, [])
  | .readNotes =>
    if s.notes.isEmpty then
      (.ok ⟨"Notes", "You have no notes yet.", none⟩, s, [])
    else
      (.ok ⟨"Notes", renderTexts (s.notes.map Note.text), none⟩, s, [])
  | .unrecognized => (.ok unrecognizedResult, s, [])

/-- Modelled from the spec: the command engine facade
`execute(rawText) -> Result` (spec section 2). -/
def execute (h : Host) (s : EngineState) (raw : String) :
    Except EngineError ResultPayload × EngineState × List Effect :=
  dispatch h s (matchIntent raw)

/-! ## HTTP command route (from `src/app/api/command/route.ts`) -/

/-- A JavaScript JSON value as far as the route observes it. -/
inductive JsonVal where
  | null
  | str (s : String)
  | num (n : Int)
  | bool (b : Bool)
deriving DecidableEq

/-- JavaScript `String(v)` coercion on the JSON values we model. -/
def jsString : JsonVal → String
  | .null => "null"
  | .str s => s
  | .num n => toString n
  | .bool b => if b then "true" else "false"

/-- The `command` field of the parsed request body: `none` models an
absent/undefined field.  `String(command ?? '')` from `route.ts` line 9. -/
def coerceCommand : Option JsonVal → String
  | none => ""
  | some .null => ""
  | some v => jsString v

/-- The parsed JSON request body as the route destructures it. -/
structure JsonBody where
  command : Option JsonVal
deriving DecidableEq

/-- Outcome of a JavaScript step that can throw: a value or a thrown
error message. -/
inductive JsStep (α : Type) where
  | ok (a : α)
  | threw (msg : String)

/-- The JSON bodies of the two possible route responses:
`{ ok: true, result }` and `{ ok: false, error }`. -/
inductive ApiBody where
  | success (result : ResultPayload)
  | failure (error : String)
deriving DecidableEq

/-- An HTTP response as built by `NextResponse.json(body, { status })`. -/
structure HttpResponse where
  status : Nat
  body : ApiBody
deriving DecidableEq

/-- The fixed 500 response of the route's catch block
(`route.ts` lines 19-25). -/
def errorResponse : HttpResponse :=
  ⟨500, .failure "Unable to process the command."⟩

/-- The `POST` handler of `route.ts`: parse the body, coerce the command
field, run the engine, answer 200 with the result; any throw anywhere is
answered by the fixed 500 response. -/
def handlePOST (body : JsStep JsonBody)
    (engine : String → JsStep ResultPayload) : HttpResponse :=
  match body with
  | .threw _ => errorResponse
  | .ok b =>
    match engine (coerceCommand b.command) with
    | .threw _ => errorResponse
    | .ok r => ⟨200, .success r⟩

/-- The route call threw somewhere: either JSON parsing failed or the
engine threw. -/
def routeThrows (body : JsStep JsonBody)
    (engine : String → JsStep ResultPayload) : Prop :=
  (∃ m, body = .threw m) ∨
    (∃ b m, body = .ok b ∧ engine (coerceCommand b.command) = .threw m)

/-! ## Browser adapter (from `src/app/page.tsx`) -/

/-- `speak(spoken ?? detail)` from `page.tsx` line 125: the text the
adapter reads aloud for a successful result. -/
def speakChoice (r : ResultPayload) : String := r.spoken.getD r.detail

/-! ## Whitelist containment -/

/-- Every executable descriptor an effect carries originates from the
static whitelist tables. -/
def EffectOnWhitelist : Effect → Prop
  | .spawnDetached d => d ∈ appsTable.map Prod.snd
  | .openUrl url => url ∈ websitesTable.map Prod.snd
  | .shellExec d => d ∈ shellTable.map Prod.snd
  | .killProcess d => d ∈ shellTable.map Prod.snd

theorem lookup_mem {α : Type} (tbl : List (String × α)) (name : String) (v : α)
    (hv : lookupTable tbl name = some v) : v ∈ tbl.map Prod.snd := by
  unfold lookupTable at hv
  cases hf : tbl.find? (fun p => p.1 = normText name) with
  | none => rw [hf] at hv; simp at hv
  | some p =>
    rw [hf] at hv
    simp only [Option.map_some'] at hv
    obtain rfl : p.2 = v := Option.some.inj hv
    exact List.mem_map_of_mem Prod.snd (List.mem_of_find?_eq_some hf)

theorem dispatch_effects_whitelisted (h : Host) (s : EngineState) (i : Intent) :
    ∀ e ∈ (dispatch h s i).2.2, EffectOnWhitelist e := by
  intro e he
  cases i with
  | launchApp name =>
    cases hr : resolveApp name with
    | none => simp [dispatch, hr] at he
    | some d =>
      simp [dispatch, hr] at he
      subst he
      exact lookup_mem _ _ _ hr
  | openWebsite name =>
    cases hr : resolveWebsite name with
    | none => simp [dispatch, hr] at he
    | some url =>
      simp [dispatch, hr] at he
      subst he
      exact lookup_mem _ _ _ hr
  | systemStatus => simp [dispatch] at he
  | runWhitelistedCommand name =>
    cases hr : resolveShellCommand name with
    | none => simp [dispatch, hr] at he
    | some d =>
      simp [dispatch, hr] at he
      split at he <;> simp at he <;>
        first
        | (cases he with
           | inl h1 => subst h1; exact lookup_mem _ _ _ hr
           | inr h2 => subst h2; exact lookup_mem _ _ _ hr)
        | (subst he; exact lookup_mem _ _ _ hr)
  | addNote text =>
    cases hn : notesAppend h.now text s.notes with
    | none => simp [dispatch, hn] at he
    | some notes => simp [dispatch, hn] at he
  | readNotes =>
    simp [dispatch] at he
    split at he <;> simp at he
  | unrecognized => simp [dispatch] at he

/-- C1. Every executable descriptor (binary path plus argument vector,
URL, or shell command) carried by any effect the engine emits for any
utterance originates from the static whitelist tables; no user-supplied
string reaches a launcher, URL opener or shell executor as the executable
or argument vector. -/
theorem c1_effects_originate_from_whitelist
    (h : Host) (s : EngineState) (u : String) :
    ∀ e ∈ (execute h s u).2.2, EffectOnWhitelist e := by
  intro e he
  exact dispatch_effects_whitelisted h s (matchIntent u) e he

/-- A concrete host oracle used by witnesses. -/
def hostA : Host :=
  ⟨100, some 3600, some 42, some 1, fun _ => ⟨100, "ok", "", 0⟩⟩

theorem c1_effects_originate_from_whitelist_witness :
    Effect.spawnDetached ⟨"/usr/bin/code", []⟩ ∈
        (execute hostA ⟨[]⟩ "Launch VS Code").2.2 ∧
      EffectOnWhitelist (Effect.spawnDetached ⟨"/usr/bin/code", []⟩) :=
  ⟨by decide,
   c1_effects_originate_from_whitelist hostA ⟨[]⟩ "Launch VS Code"
     (Effect.spawnDetached ⟨"/usr/bin/code", []⟩) (by decide)⟩

/-! ## Unmatched utterances -/

theorem matchGo_no_trigger (l : List Rule) (n : String)
    (hnone : ∀ r ∈ l, strStarts n r.trigger = false) :
    matchGo l n = .unrecognized := by
  induction l with
  | nil => rfl
  | cons r rest ih =>
    have hr := hnone r (List.mem_cons_self r rest)
    simp [matchGo, hr]
    exact ih fun r2 h2 => hnone r2 (List.mem_cons_of_mem r h2)

/-- C2. For every utterance matching no trigger phrase — the empty and
whitespace-only utterances included — `execute` returns the
`Unrecognized` Result as a normal value (the `.ok` branch, never an
engine error), leaves the state unchanged and emits no effect. -/
theorem c2_unmatched_yields_unrecognized
    (h : Host) (s : EngineState) (u : String)
    (hnone : ∀ r ∈ rules, strStarts (normText u) r.trigger = false) :
    execute h s u = (.ok unrecognizedResult, s, []) := by
  unfold execute matchIntent
  rw [matchGo_no_trigger rules (normText u) hnone]
  rfl

theorem c2_unmatched_yields_unrecognized_witness :
    execute hostA ⟨[]⟩ "" = (.ok unrecognizedResult, ⟨[]⟩, []) ∧
      execute hostA ⟨[]⟩ "   " = (.ok unrecognizedResult, ⟨[]⟩, []) ∧
      execute hostA ⟨[]⟩ "make me a sandwich" = (.ok unrecognizedResult, ⟨[]⟩, []) :=
  ⟨c2_unmatched_yields_unrecognized hostA ⟨[]⟩ "" (by decide),
   c2_unmatched_yields_unrecognized hostA ⟨[]⟩ "   " (by decide),
   c2_unmatched_yields_unrecognized hostA ⟨[]⟩ "make me a sandwich" (by decide)⟩

/-! ## Unsupported targets -/

/-- C3. For every name absent from the whitelist, dispatching
`LaunchApp`, `OpenWebsite` or `RunWhitelistedCommand` yields the
`UnsupportedTarget` error carrying the name (a user-facing error value,
never a silent success), with no state change and no effect; the lookups
themselves are total functions into `Option`, so "not found" is a value,
not an exception. -/
theorem c3_absent_name_unsupported_target
    (h : Host) (s : EngineState) (name : String) :
    (resolveApp name = none →
      dispatch h s (.launchApp name) = (.error (.unsupportedTarget name), s, [])) ∧
    (resolveWebsite name = none →
      dispatch h s (.openWebsite name) = (.error (.unsupportedTarget name), s, [])) ∧
    (resolveShellCommand name = none →
      dispatch h s (.runWhitelistedCommand name) =
        (.error (.unsupportedTarget name), s, [])) := by
  refine ⟨fun ha => ?_, fun hw => ?_, fun hc => ?_⟩
  · simp [dispatch, ha]
  · simp [dispatch, hw]
  · simp [dispatch, hc]

theorem c3_absent_name_unsupported_target_witness :
    resolveApp "frobnicator" = none ∧
      dispatch hostA ⟨[]⟩ (.launchApp "frobnicator") =
        (.error (.unsupportedTarget "frobnicator"), ⟨[]⟩, []) :=
  ⟨by decide,
   (c3_absent_name_unsupported_target hostA ⟨[]⟩ "frobnicator").1 (by decide)⟩

/-! ## Timeout enforcement -/

/-- C4. For every whitelisted shell command whose host execution exceeds
the wall-clock budget, the engine returns the `Timeout` error instead of
a result, and the emitted effects record that the spawned process was
forcibly killed, so it is not left running. -/
theorem c4_timeout_kills_process
    (h : Host) (s : EngineState) (name : String) (d : ExecDesc)
    (hres : resolveShellCommand name = some d)
    (hslow : timeoutBudgetMs < (h.shellRun d).durationMs) :
    dispatch h s (.runWhitelistedCommand name) =
      (.error .timeout, s, [.shellExec d, .killProcess d]) := by
  simp [dispatch, hres, hslow]

/-- A host whose shell executions all take 6 seconds. -/
def hostSlow : Host :=
  ⟨100, some 3600, some 42, some 1, fun _ => ⟨6000, "", "", 0⟩⟩

theorem c4_timeout_kills_process_witness :
    dispatch hostSlow ⟨[]⟩ (.runWhitelistedCommand "status") =
      (.error .timeout, ⟨[]⟩,
        [.shellExec ⟨"/usr/bin/uptime", []⟩, .killProcess ⟨"/usr/bin/uptime", []⟩]) :=
  c4_timeout_kills_process hostSlow ⟨[]⟩ "status" ⟨"/usr/bin/uptime", []⟩
    (by decide) (by decide)

/-! ## Notes round-trip -/

theorem strData_append (a b : String) : (a ++ b).data = a.data ++ b.data := by
  cases a; cases b; rfl

theorem strContains_renderTexts (l : List String) (t : String) (ht : t ∈ l) :
    strContains (renderTexts l) t := by
  induction l with
  | nil => cases ht
  | cons x xs ih =>
    cases xs with
    | nil =>
      have hx : t = x := by simpa using ht
      subst hx
      exact ⟨[], [], by simp [renderTexts]⟩
    | cons y ys =>
      have hrw : renderTexts (x :: y :: ys) = x ++ "\n" ++ renderTexts (y :: ys) := rfl
      rcases List.mem_cons.mp ht with hx | hmem
      · subst hx
        refine ⟨[], (("\n" : String).data ++ (renderTexts (y :: ys)).data), ?_⟩
        rw [hrw, strData_append, strData_append]
        simp
      · obtain ⟨pre, post, hp⟩ := ih hmem
        refine ⟨x.data ++ ("\n" : String).data ++ pre, post, ?_⟩
        rw [hrw, strData_append, strData_append, ← hp]
        simp

/-- Fold a sequence of `AddNote` dispatches over the engine state. -/
def addNotesAll (h : Host) (ts : List String) (s : EngineState) : EngineState :=
  ts.foldl (fun st x => (dispatch h st (.addNote x)).2.1) s

theorem addNote_state (h : Host) (s : EngineState) (t : String)
    (ht : strTrim t ≠ "") :
    (dispatch h s (.addNote t)).2.1 = ⟨s.notes ++ [(⟨h.now, t⟩ : Note)]⟩ := by
  simp [dispatch, notesAppend, ht]

theorem addNotesAll_texts (h : Host) (ts : List String) :
    ∀ s : EngineState, (∀ x ∈ ts, strTrim x ≠ "") →
      (addNotesAll h ts s).notes.map Note.text = s.notes.map Note.text ++ ts := by
  induction ts with
  | nil => intro s _; simp [addNotesAll]
  | cons t rest ih =>
    intro s hts
    have ht : strTrim t ≠ "" := hts t (List.mem_cons_self t rest)
    have hstep : addNotesAll h (t :: rest) s =
        addNotesAll h rest ⟨s.notes ++ [(⟨h.now, t⟩ : Note)]⟩ := by
      simp [addNotesAll, List.foldl_cons, addNote_state h s t ht]
    rw [hstep, ih ⟨s.notes ++ [(⟨h.now, t⟩ : Note)]⟩ fun x hx => hts x (List.mem_cons_of_mem t hx)]
    simp

/-- C5. Appending a note with nonempty text extends the store at the end
(existing notes untouched), a following `ReadNotes` succeeds with a
detail that contains the text and renders the stored notes
chronologically, `ReadNotes` leaves the store unchanged, and any
sequence of appended notes appears in the store in insertion order,
oldest first. -/
theorem c5_note_roundtrip_order
    (h h2 : Host) (s : EngineState) (t : String) (ts : List String)
    (ht : strTrim t ≠ "") (hts : ∀ x ∈ ts, strTrim x ≠ "") :
    (dispatch h s (.addNote t)).2.1 = ⟨s.notes ++ [(⟨h.now, t⟩ : Note)]⟩ ∧
    (∃ r, (dispatch h2 ⟨s.notes ++ [(⟨h.now, t⟩ : Note)]⟩ .readNotes).1 = .ok r ∧
      strContains r.detail t ∧
      r.detail = renderTexts ((s.notes ++ [(⟨h.now, t⟩ : Note)]).map Note.text)) ∧
    (dispatch h2 ⟨s.notes ++ [(⟨h.now, t⟩ : Note)]⟩ .readNotes).2.1 =
      ⟨s.notes ++ [(⟨h.now, t⟩ : Note)]⟩ ∧
    (addNotesAll h ts s).notes.map Note.text = s.notes.map Note.text ++ ts := by
  refine ⟨addNote_state h s t ht, ?_, ?_, addNotesAll_texts h ts s hts⟩
  · have hne : ((s.notes ++ [(⟨h.now, t⟩ : Note)] : List Note)).isEmpty = false := by
      simp
    refine ⟨⟨"Notes", renderTexts ((s.notes ++ [(⟨h.now, t⟩ : Note)]).map Note.text), none⟩,
      ?_, ?_, rfl⟩
    · simp [dispatch, hne]
    · exact strContains_renderTexts _ t (by simp)
  · simp [dispatch]

theorem c5_note_roundtrip_order_witness :
    (dispatch hostA ⟨[]⟩ (.addNote "buy milk")).2.1 =
        ⟨[⟨100, "buy milk"⟩]⟩ ∧
      (∃ r, (dispatch hostA ⟨[(⟨100, "buy milk"⟩ : Note)]⟩ .readNotes).1 = .ok r ∧
        strContains r.detail "buy milk" ∧
        r.detail = renderTexts (([(⟨100, "buy milk"⟩ : Note)]).map Note.text)) ∧
      (dispatch hostA ⟨[(⟨100, "buy milk"⟩ : Note)]⟩ .readNotes).2.1 =
        ⟨[⟨100, "buy milk"⟩]⟩ ∧
      (addNotesAll hostA ["a", "b"] ⟨[]⟩).notes.map Note.text =
        ([] : List Note).map Note.text ++ ["a", "b"] := by
  have hmain := c5_note_roundtrip_order hostA hostA ⟨[]⟩ "buy milk" ["a", "b"]
    (by decide) (by decide)
  simpa using hmain

/-! ## Matcher priority and slot extraction -/

theorem matchGo_append (pre : List Rule) (r : Rule) (post : List Rule) (n : String)
    (hpre : ∀ r2 ∈ pre, strStarts n r2.trigger = false)
    (hr : strStarts n r.trigger = true) :
    matchGo (pre ++ r :: post) n = applyRule r n := by
  induction pre with
  | nil => simp [matchGo, hr]
  | cons p ps ih =>
    have hp := hpre p (List.mem_cons_self p ps)
    simp only [List.cons_append, matchGo, hp, Bool.false_eq_true, if_false]
    exact ih fun r2 h2 => hpre r2 (List.mem_cons_of_mem p h2)

/-- C6. The rule list is ordered with longer trigger phrases first; the
first rule whose trigger phrase is a prefix of the normalized utterance
decides the intent; a slot rule whose extracted slot (the remainder after
the trigger phrase, trimmed) is empty yields `Unrecognized`, and
otherwise builds its intent from exactly that trimmed remainder. -/
theorem c6_matcher_priority_and_slots :
    List.Pairwise (fun a b => b.trigger.data.length ≤ a.trigger.data.length) rules ∧
    (∀ (u : String) (pre : List Rule) (r : Rule) (post : List Rule),
      rules = pre ++ r :: post →
      (∀ r2 ∈ pre, strStarts (normText u) r2.trigger = false) →
      strStarts (normText u) r.trigger = true →
      matchIntent u = applyRule r (normText u)) ∧
    (∀ (n : String) (r : Rule) (build : String → Intent), r.action = .slot build →
      strTrim (strDrop n r.trigger.length) = "" →
      applyRule r n = .unrecognized) ∧
    (∀ (n : String) (r : Rule) (build : String → Intent), r.action = .slot build →
      strTrim (strDrop n r.trigger.length) ≠ "" →
      applyRule r n = build (strTrim (strDrop n r.trigger.length))) := by
  refine ⟨by decide, ?_, ?_, ?_⟩
  · intro u pre r post heq hpre hr
    unfold matchIntent
    rw [heq]
    exact matchGo_append pre r post (normText u) hpre hr
  · intro n r build hact hempty
    simp [applyRule, hact, hempty]
  · intro n r build hact hne
    simp [applyRule, hact, hne]

theorem c6_matcher_priority_and_slots_witness :
    matchIntent "Launch VS Code" = Intent.launchApp "vs code" ∧
      matchIntent "take note that   " = Intent.unrecognized := by
  have h := c6_matcher_priority_and_slots
  constructor
  · have h2 := h.2.1 "Launch VS Code"
      [⟨"what is our system status", .plain .systemStatus⟩,
       ⟨"open the website", .slot .openWebsite⟩,
       ⟨"run the command", .slot .runWhitelistedCommand⟩,
       ⟨"take note that", .slot .addNote⟩,
       ⟨"read my notes", .plain .readNotes⟩]
      ⟨"launch", .slot .launchApp⟩ [] rfl (by decide) (by decide)
    rw [h2]
    rfl
  · have h2 := h.2.1 "take note that   "
      [⟨"what is our system status", .plain .systemStatus⟩,
       ⟨"open the website", .slot .openWebsite⟩,
       ⟨"run the command", .slot .runWhitelistedCommand⟩]
      ⟨"take note that", .slot .addNote⟩
      [⟨"read my notes", .plain .readNotes⟩, ⟨"launch", .slot .launchApp⟩]
      rfl (by decide) (by decide)
    have h3 := h.2.2.1 (normText "take note that   ")
      ⟨"take note that", .slot .addNote⟩ Intent.addNote rfl (by decide)
    rw [h2, h3]

/-! ## Read paths are pure -/

/-- C7. `SystemStatus` and `ReadNotes` leave the engine state (the notes
store) unchanged, twice in succession included, and the health report of
each `SystemStatus` call is recomputed from the host's metrics at that
call — the second call reports the second host snapshot, never a cached
first one. -/
theorem c7_read_paths_do_not_mutate (h1 h2 : Host) (s : EngineState) :
    (dispatch h1 s .systemStatus).2.1 = s ∧
    (dispatch h1 s .readNotes).2.1 = s ∧
    (dispatch h2 (dispatch h1 s .systemStatus).2.1 .systemStatus).2.1 = s ∧
    (dispatch h2 (dispatch h1 s .readNotes).2.1 .readNotes).2.1 = s ∧
    (dispatch h2 (dispatch h1 s .systemStatus).2.1 .systemStatus).1 =
      .ok ⟨"System Status", healthDetail h2, some (healthSpoken h2)⟩ := by
  have hread : ∀ (h : Host) (st : EngineState), (dispatch h st .readNotes).2.1 = st := by
    intro h st
    simp only [dispatch]
    split <;> rfl
  exact ⟨rfl, hread h1 s, rfl, by rw [hread h1 s]; exact hread h2 s, rfl⟩

/-! ## Spoken fallback -/

theorem dispatch_spoken (h : Host) (s : EngineState) (i : Intent)
    (r : ResultPayload) (hr : (dispatch h s i).1 = .ok r) :
    r.spoken = none ∨ r.spoken = some (healthSpoken h) := by
  cases i with
  | launchApp name =>
    cases ha : resolveApp name <;> simp [dispatch, ha] at hr
    left; rw [← hr]
  | openWebsite name =>
    cases ha : resolveWebsite name <;> simp [dispatch, ha] at hr
    left; rw [← hr]
  | systemStatus =>
    simp [dispatch] at hr
    right; rw [← hr]
  | runWhitelistedCommand name =>
    cases ha : resolveShellCommand name <;> simp [dispatch, ha] at hr
    split at hr <;> simp at hr
    left; rw [← hr]
  | addNote text =>
    cases ha : notesAppend h.now text s.notes <;> simp [dispatch, ha] at hr
    left; rw [← hr]
  | readNotes =>
    simp only [dispatch] at hr
    split at hr <;> simp at hr <;> (left; rw [← hr])
  | unrecognized =>
    simp [dispatch, unrecognizedResult] at hr
    left; rw [← hr]

/-- C8. The adapter speaks the `spoken` field when present and falls back
to `detail` when it is absent (`spoken ?? detail` in `page.tsx`); and the
engine itself never fabricates a `spoken` value — every successful Result
carries either no `spoken` or the genuine spoken health summary computed
from the host. -/
theorem c8_spoken_defaults_to_detail :
    (∀ (r : ResultPayload) (sp : String), r.spoken = some sp → speakChoice r = sp) ∧
    (∀ r : ResultPayload, r.spoken = none → speakChoice r = r.detail) ∧
    (∀ (h : Host) (s : EngineState) (u : String) (r : ResultPayload),
      (execute h s u).1 = .ok r →
      r.spoken = none ∨ r.spoken = some (healthSpoken h)) := by
  refine ⟨?_, ?_, ?_⟩
  · intro r sp hsp; simp [speakChoice, hsp]
  · intro r hnone; simp [speakChoice, hnone]
  · intro h s u r hr
    exact dispatch_spoken h s (matchIntent u) r hr

theorem c8_spoken_defaults_to_detail_witness :
    speakChoice ⟨"Status", "Detail text", some "Spoken text"⟩ = "Spoken text" ∧
      speakChoice ⟨"Status", "Detail text", none⟩ = "Detail text" ∧
      ((⟨"App Launched", "Launching vs code.", none⟩ : ResultPayload).spoken = none ∨
        (⟨"App Launched", "Launching vs code.", none⟩ : ResultPayload).spoken =
          some (healthSpoken hostA)) :=
  ⟨c8_spoken_defaults_to_detail.1 ⟨"Status", "Detail text", some "Spoken text"⟩
      "Spoken text" rfl,
   c8_spoken_defaults_to_detail.2.1 ⟨"Status", "Detail text", none⟩ rfl,
   c8_spoken_defaults_to_detail.2.2 hostA ⟨[]⟩ "Launch VS Code"
      ⟨"App Launched", "Launching vs code.", none⟩ rfl⟩

/-! ## Route error opacity -/

theorem routeThrows_response (b : JsStep JsonBody)
    (e : String → JsStep ResultPayload) (hb : routeThrows b e) :
    handlePOST b e = errorResponse := by
  rcases hb with ⟨m, rfl⟩ | ⟨jb, m, rfl, hm⟩
  · rfl
  · simp [handlePOST, hm]

/-- C9. Whenever the route's handler throws — during body parsing or
inside the engine — the HTTP response is status 500 with the fixed body
`{ ok: false, error: "Unable to process the command." }`; two runs that
throw for different reasons produce byte-identical responses, so nothing
about the thrown error is disclosed. -/
theorem c9_error_responses_identical
    (b1 b2 : JsStep JsonBody) (e1 e2 : String → JsStep ResultPayload)
    (h1 : routeThrows b1 e1) (h2 : routeThrows b2 e2) :
    handlePOST b1 e1 = handlePOST b2 e2 ∧
      handlePOST b1 e1 = ⟨500, .failure "Unable to process the command."⟩ := by
  have r1 := routeThrows_response b1 e1 h1
  have r2 := routeThrows_response b2 e2 h2
  exact ⟨r1.trans r2.symm, r1⟩

theorem c9_error_responses_identical_witness :
    handlePOST (.threw "SyntaxError: Unexpected end of JSON input")
        (fun _ => .ok ⟨"t", "d", none⟩) =
      handlePOST (.ok ⟨some (.str "launch vs code")⟩)
        (fun _ => .threw "EACCES: permission denied, spawn /usr/bin/code") ∧
    handlePOST (.threw "SyntaxError: Unexpected end of JSON input")
        (fun _ => .ok ⟨"t", "d", none⟩) =
      ⟨500, .failure "Unable to process the command."⟩ :=
  c9_error_responses_identical
    (.threw "SyntaxError: Unexpected end of JSON input")
    (.ok ⟨some (.str "launch vs code")⟩)
    (fun _ => .ok ⟨"t", "d", none⟩)
    (fun _ => .threw "EACCES: permission denied, spawn /usr/bin/code")
    (Or.inl ⟨_, rfl⟩)
    (Or.inr ⟨⟨some (.str "launch vs code")⟩, _, rfl, rfl⟩)

/-! ## Route success path -/

/-- C10. The route computes the command as `String(command ?? "")`: an
absent or null `command` field reaches the engine as the empty string
rather than being rejected, and when the engine returns a result the
route answers 200 with `ok: true` and that result verbatim. -/
theorem c10_route_command_coercion_and_success
    (jb : JsonBody) (engine : String → JsStep ResultPayload) (r : ResultPayload) :
    coerceCommand none = "" ∧
    coerceCommand (some .null) = "" ∧
    ((jb.command = none ∨ jb.command = some .null) → coerceCommand jb.command = "") ∧
    (engine (coerceCommand jb.command) = .ok r →
      handlePOST (.ok jb) engine = ⟨200, .success r⟩) := by
  refine ⟨rfl, rfl, ?_, ?_⟩
  · rintro (hc | hc) <;> rw [hc] <;> rfl
  · intro he; simp [handlePOST, he]

theorem c10_route_command_coercion_and_success_witness :
    coerceCommand (⟨none⟩ : JsonBody).command = "" ∧
      handlePOST (.ok ⟨none⟩)
          (fun _ => .ok ⟨"Notes", "You have no notes yet.", none⟩) =
        ⟨200, .success ⟨"Notes", "You have no notes yet.", none⟩⟩ :=
  ⟨(c10_route_command_coercion_and_success ⟨none⟩
      (fun _ => .ok ⟨"Notes", "You have no notes yet.", none⟩)
      ⟨"Notes", "You have no notes yet.", none⟩).2.2.1 (Or.inl rfl),
   (c10_route_command_coercion_and_success ⟨none⟩
      (fun _ => .ok ⟨"Notes", "You have no notes yet.", none⟩)
      ⟨"Notes", "You have no notes yet.", none⟩).2.2.2 rfl⟩
